import Mathlib

/-!
Shallow embedding of the btfx-trader account engine
(`btfx_trader/private.py` and `btfx_trader/trade.py`).

Modelling conventions:
* Python floats are modelled as exact rationals (`ℚ`); Python's
  `round(x, n)` is modelled as decimal rounding half-to-even
  (`pyRoundInt`, `round8`, `round2`).
* `dict` / `OrderedDict` / `defaultdict(float)` are modelled as
  insertion-ordered association lists; assignment replaces the first
  matching key in place (keeping its position) or appends a new pair at
  the end, exactly as Python dictionaries behave; `defaultdict(float)`
  lookups of a missing key yield `0`.
* `collections.deque(maxlen=100)` is modelled by `dequeAppend 100`.
* The submission method `Trader.order` is a pure function of the store
  snapshot it reads; validation failures (Python `assert`) are modelled
  as `Except.error`, and a successful run returns the payload passed to
  the transport's `new_order` call.
-/

namespace Btfx

/-- Order record as produced by `_jsonify_orders` (private.py, lines 14-26)
and `Trader._create_order_json` (trade.py, lines 66-80). -/
structure Order where
  symbol : String
  price : ℚ
  executed_price : ℚ
  amount : ℚ
  executed : ℚ
  remaining : ℚ
  status : String
  timestamp : ℚ
deriving Repr, DecidableEq

/-- The fields of a raw websocket order payload that `_jsonify_orders`
reads, with the index each field occupies in the original array. -/
structure RawOrder where
  id : ℤ              -- datum[0]
  symbol : String      -- datum[3]
  mts : ℚ             -- datum[5]
  remaining : ℚ       -- datum[6]
  amount : ℚ          -- datum[7]
  status : String      -- datum[13]
  price : ℚ           -- datum[16]
  executed_price : ℚ  -- datum[17]
deriving Repr, DecidableEq

/-- ASCII `str.lower()` (all strings in this engine are ASCII). Uses a
character-level map so that it reduces structurally. -/
def strLower (s : String) : String := ⟨s.data.map Char.toLower⟩

/-- ASCII `str.upper()`. -/
def strUpper (s : String) : String := ⟨s.data.map Char.toUpper⟩

/-- Python `s[1:]`. -/
def strDrop1 (s : String) : String := ⟨s.data.drop 1⟩

/-- Python `s.startswith(pre)`. -/
def strStartsWith (s pre : String) : Bool := pre.data.isPrefixOf s.data

/-- Character-level body of `s.replace('usd', '')`: drop every
(non-overlapping, left-to-right) occurrence of `usd`. -/
def removeUsdAux : List Char → List Char
  | 'u' :: 's' :: 'd' :: rest => removeUsdAux rest
  | c :: rest => c :: removeUsdAux rest
  | [] => []

/-- Character-level body of `s.upper().split('USD')[0]`: everything
before the first occurrence of `USD` (the whole string if none). -/
def takeUntilUSD : List Char → List Char
  | 'U' :: 'S' :: 'D' :: _ => []
  | c :: rest => c :: takeUntilUSD rest
  | [] => []

/-- First whitespace-delimited word of a string: Python `s.split()[0]`
(empty result for an all-space string, where Python would raise). -/
def pyFirstWord (s : String) : String :=
  ⟨(s.data.dropWhile (fun c => c = ' ')).takeWhile (fun c => c ≠ ' ')⟩

/-- `_jsonify_orders` (private.py, lines 14-26) on a single datum:
`executed` is `datum[7] - datum[6]`, `remaining` is `datum[6]`,
`symbol` is `datum[3][1:].upper()`, `status` is `datum[13].split()[0]`. -/
def jsonifyOrder (d : RawOrder) : ℤ × Order :=
  (d.id,
   { symbol := strUpper (strDrop1 d.symbol)
     price := d.price
     executed_price := d.executed_price
     amount := d.amount
     executed := d.amount - d.remaining
     remaining := d.remaining
     status := pyFirstWord d.status
     timestamp := d.mts / 1000 })

/-- `_jsonify_orders` over a batch. -/
def jsonify_orders (data : List RawOrder) : List (ℤ × Order) :=
  data.map jsonifyOrder

/-- Python dict assignment `m[k] = v` on an insertion-ordered
association list: replace in place if the key is present, else append. -/
def assocSet {α β : Type} [DecidableEq α] : List (α × β) → α → β → List (α × β)
  | [], k, v => [(k, v)]
  | p :: rest, k, v =>
      if p.1 = k then (k, v) :: rest else p :: assocSet rest k v

/-- Python `del m[k]`. -/
def assocDel {α β : Type} [DecidableEq α] (m : List (α × β)) (k : α) :
    List (α × β) :=
  m.filter (fun p => p.1 ≠ k)

/-- Dictionary lookup on an association list (first matching key). -/
def alookup {α β : Type} [DecidableEq α] : List (α × β) → α → Option β
  | [], _ => none
  | p :: rest, k => if p.1 = k then some p.2 else alookup rest k

/-- `defaultdict(float)` lookup: missing keys read as `0`. -/
def dGet (m : List (String × ℚ)) (k : String) : ℚ :=
  (alookup m k).getD 0

/-- `collections.deque(maxlen := maxlen).append`: when the deque is
full the oldest (leftmost) element is dropped. -/
def dequeAppend {α : Type} (maxlen : ℕ) (q : List α) (x : α) : List α :=
  if q.length < maxlen then q ++ [x] else q.drop 1 ++ [x]

/-- The `_Account` state (private.py, lines 34-45): executed-order
history (`deque(maxlen=100)`), open orders (`OrderedDict`), last-known
prices and wallet balances (`defaultdict(float)`). -/
structure Account where
  executed_orders : List (ℤ × Order) := []
  orders : List (ℤ × Order) := []
  prices : List (String × ℚ) := []
  wallets : List (String × ℚ) := []
deriving Repr, DecidableEq

/-- The freshly initialized (empty) account store. -/
def Account.init : Account := {}

/-- `_Account._handle_order_update` (private.py, lines 118-123): insert
every order of the batch, in ascending-timestamp order (stable). -/
def handle_order_update (orders : List (ℤ × Order)) (s : Account) : Account :=
  { s with
    orders :=
      (orders.mergeSort (fun a b => a.2.timestamp ≤ b.2.timestamp)).foldl
        (fun m p => assocSet m p.1 p.2) s.orders }

/-- Loop body of `_Account._handle_order_close` (private.py, lines
126-135): a close whose status starts with `CANCEL` is only logged; any
other close appends `(id, order)` to the executed history; in either
case the id is deleted from open orders if (and only if) it is
present. -/
def close_step (st : Account) (p : ℤ × Order) : Account :=
  let st1 :=
    if strStartsWith p.2.status "CANCEL" then st
    else { st with executed_orders := dequeAppend 100 st.executed_orders p }
  if (alookup st1.orders p.1).isSome then
    { st1 with orders := assocDel st1.orders p.1 }
  else st1

/-- `_Account._handle_order_close` (private.py, lines 125-135). -/
def handle_order_close (orders : List (ℤ × Order)) (s : Account) : Account :=
  orders.foldl close_step s

/-- Order-channel events: `os` carries a batch, `on`/`ou`/`oc` a single
raw order payload (private.py, lines 137-144). -/
inductive OrderEvent
  | os (data : List RawOrder)
  | on (datum : RawOrder)
  | ou (datum : RawOrder)
  | oc (datum : RawOrder)
deriving Repr, DecidableEq

/-- `_Account._handle_order` (private.py, lines 137-144). -/
def handle_order : OrderEvent → Account → Account
  | .os data, s => handle_order_update (jsonify_orders data) s
  | .on d, s => handle_order_update (jsonify_orders [d]) s
  | .ou d, s => handle_order_update (jsonify_orders [d]) s
  | .oc d, s => handle_order_close (jsonify_orders [d]) s

/-- Applying a sequence of order events left to right. -/
def applyOrderEvents (evs : List OrderEvent) (s : Account) : Account :=
  evs.foldl (fun a e => handle_order e a) s

/-- One entry of a wallet snapshot/delta payload: wallet-type tag,
currency code, balance. -/
structure WalletEntry where
  wtype : String
  currency : String
  balance : ℚ
deriving Repr, DecidableEq

/-- Wallet-channel events: `ws` is a snapshot, `wu` a delta. -/
inductive WalletEvent
  | ws (data : List WalletEntry)
  | wu (datum : WalletEntry)
deriving Repr, DecidableEq

/-- `_Account._handle_wallet` (private.py, lines 152-158): a snapshot
(`ws`) sets `wallets[currency] = balance` only for entries whose
wallet-type tag lower-cases to `"exchange"`; a delta (`wu`) sets
`wallets[currency] = balance` without inspecting the tag. -/
def handle_wallet : WalletEvent → Account → Account
  | .ws data, s =>
      { s with
        wallets :=
          data.foldl
            (fun w d =>
              if strLower d.wtype = "exchange" then
                assocSet w (strLower d.currency) d.balance
              else w)
            s.wallets }
  | .wu d, s =>
      { s with wallets := assocSet s.wallets (strLower d.currency) d.balance }

/-- `_Account._handle_ticker` (private.py, lines 146-150): store the
size-weighted mid price for the symbol. -/
def handle_ticker (symbol : String) (bid bidSize ask askSize : ℚ)
    (s : Account) : Account :=
  { s with
    prices :=
      assocSet s.prices symbol
        ((bid * bidSize + ask * askSize) / (bidSize + askSize)) }

/-- Python's `round(x)` to an integer: round half to even. -/
def pyRoundInt (x : ℚ) : ℤ :=
  let f := ⌊x⌋
  if x - f < 1 / 2 then f
  else if 1 / 2 < x - f then f + 1
  else if f % 2 = 0 then f else f + 1

/-- Python `round(x, 8)` (decimal, half-to-even). -/
def round8 (x : ℚ) : ℚ := pyRoundInt (x * 10 ^ 8) / 10 ^ 8

/-- Python `round(x, 2)` (decimal, half-to-even). -/
def round2 (x : ℚ) : ℚ := pyRoundInt (x * 10 ^ 2) / 10 ^ 2

/-- `symbol.lower().replace('usd', '')`: the wallet currency a ticker
symbol maps to. -/
def coinOf (symbol : String) : String :=
  ⟨removeUsdAux (strLower symbol).data⟩

/-- The loop body of `_Account.available_balances` (private.py, lines
53-59): an open sell (`remaining < 0`) adds its (negative) remaining to
the coin balance; any other open order subtracts `remaining * price`
from the USD balance. -/
def order_adjust (w : List (String × ℚ)) (o : Order) : List (String × ℚ) :=
  if o.remaining < 0 then
    assocSet w (coinOf o.symbol) (dGet w (coinOf o.symbol) + o.remaining)
  else
    assocSet w "usd" (dGet w "usd" - o.remaining * o.price)

/-- `_Account.available_balances` (private.py, lines 47-61) read at a
currency: fold the adjustment over the open orders (insertion order),
then round to 8 decimal places. A currency absent from the result reads
as `0 = round8 0`, matching the returned `defaultdict(float)`. -/
def available_balances (s : Account) (c : String) : ℚ :=
  round8 (dGet ((s.orders.map Prod.snd).foldl order_adjust s.wallets) c)

/-- `_Account.value` (private.py, lines 91-102): total portfolio value;
non-USD balances are converted with `prices[currency.upper() + 'USD']`;
rounded to 2 decimal places. -/
def value (s : Account) : ℚ :=
  round2 (s.wallets.foldl
    (fun t p =>
      t + (if p.1 ≠ "usd" then p.2 * dGet s.prices (strUpper p.1 ++ "USD")
           else p.2))
    0)

/-- `_Account.positions` (private.py, lines 79-89) read at a symbol:
`wallets[coin] * prices[symbol] / value` for every symbol with a price
entry, `0` otherwise (`defaultdict(float)` result). -/
def positions_priv (s : Account) (symbol : String) : ℚ :=
  if (alookup s.prices symbol).isSome then
    dGet s.wallets (coinOf symbol) * dGet s.prices symbol / value s
  else 0

/-- `Trader.position` (trade.py, lines 242-244):
`(wallets[coin] * prices[symbol] - wallets['usd']) / value`. -/
def position_trade (s : Account) (symbol : String) : ℚ :=
  (dGet s.wallets (coinOf symbol) * dGet s.prices symbol
    - dGet s.wallets "usd") / value s

/-- The price argument of `Trader.order`: either the `'market'`
sentinel string or a numeric price. -/
inductive PriceArg
  | market
  | px (p : ℚ)
deriving Repr, DecidableEq

/-- The keyword payload `Trader.order` passes to the transport's
`new_order` call (private.py, lines 325-331). -/
structure OrderRequest where
  trade_type : String
  symbol : String
  amount : ℚ
  price : ℚ
deriving Repr, DecidableEq

/-- Python truthiness of an optional float argument: `None` and `0` are
falsy, every other number truthy. -/
def truthy : Option ℚ → Bool
  | none => false
  | some x => decide (x ≠ 0)

/-- Python `a or b` on optional floats: `a` if truthy, else `b`. -/
def pyOr2 (a b : Option ℚ) : Option ℚ := if truthy a then a else b

/-- Python `a or b or c` on optional floats. -/
def pyOr3 (a b c : Option ℚ) : Option ℚ := pyOr2 a (pyOr2 b c)

/-- `Trader._trade_types` (private.py, line 173). -/
def tradeTypes : List String := ["market", "limit"]

/-- Validation error of the first sizing assert (private.py, line 278). -/
def errNoSizing : String :=
  "Must provide either dollar_amount, ratio or value_ratio"

/-- Validation error of the second sizing assert (private.py, line 280). -/
def errManySizing : String :=
  "Must provide only 1 of dollar_amount, ratio or value_ratio"

/-- Validation error of the trade-type assert (private.py, line 282). -/
def errTradeType : String := "Unknown trade type"

/-- `Trader.order` (private.py, lines 278-331) as a pure function of
the store snapshot it reads: the three validation asserts, symbol
normalization, buy/sell direction from the first truthy sizing
argument, market-price resolution, price padding, the price floor,
amount sizing from available balances, 8-decimal rounding, and the
minimum/maximum notional asserts. A `.ok` result is the payload handed
to the transport's `new_order`; an `.error` is a raised
`AssertionError` (no transport call, store untouched). -/
def order (s : Account) (symbol0 : String) (price0 : PriceArg)
    (dollar_amount ratio value_ratio : Option ℚ)
    (trade_type0 : String) (pad_price : Option ℚ) :
    Except String OrderRequest :=
  if ¬ (truthy dollar_amount = true ∨ truthy ratio = true ∨
        truthy value_ratio = true) then
    .error errNoSizing
  else if [dollar_amount, ratio, value_ratio].countP truthy ≠ 1 then
    .error errManySizing
  else if strLower trade_type0 ∉ tradeTypes then
    .error errTradeType
  else
    let symbol_lower := coinOf symbol0
    let symbol := String.mk (takeUntilUSD (strUpper symbol0).data) ++ "USD"
    let buying := decide (0 < (pyOr3 dollar_amount ratio value_ratio).getD 0)
    let tp : String × ℚ :=
      match price0 with
      | .market => ("market", dGet s.prices symbol)
      | .px p =>
          if trade_type0 = "market" then ("market", dGet s.prices symbol)
          else (trade_type0, p)
    let price :=
      if truthy pad_price then
        (if buying then tp.2 + max (tp.2 * pad_price.getD 0) (1 / 100)
         else tp.2 + min (-(tp.2 * pad_price.getD 0)) (-(1 / 100)))
      else tp.2
    if price < 1 / 100 then .error "Price cannot be less than $0.01"
    else
      let max_amount :=
        if buying then available_balances s "usd" / price
        else available_balances s symbol_lower
      let amount0 :=
        if truthy dollar_amount then dollar_amount.getD 0 / price
        else if truthy ratio then max_amount * ratio.getD 0
        else
          min (max (-max_amount) (value s * value_ratio.getD 0 / price))
            max_amount
      let amount := round8 amount0
      let max_amount := round8 max_amount
      if |amount| < 35 / price then .error "below minimum"
      else if max_amount < |amount| then .error "above maximum"
      else
        .ok { trade_type := "EXCHANGE " ++ strUpper tp.1
              symbol := "t" ++ symbol
              amount := amount
              price := price }

/-- What the correlation loop in `Trader.order` (private.py, lines
333-343) can observe of the store in one poll: the open-order ids (in
insertion order) and the id of the most recent executed order, if any. -/
structure Snap where
  openIds : List ℤ
  execTail : Option ℤ
deriving Repr, DecidableEq

/-- Snapshot of an account store as seen by the correlation loop. -/
def snapOf (s : Account) : Snap :=
  { openIds := s.orders.map Prod.fst
    execTail := (s.executed_orders.getLast?).map Prod.fst }

/-- First open id not in the pre-submission id set (private.py, lines
334-337). -/
def freshId (cur : List ℤ) (sn : Snap) : Option ℤ :=
  sn.openIds.find? (fun i => !(cur.contains i))

/-- The correlation loop of `Trader.order` (private.py, lines 319-343)
run over the sequence of store snapshots it observes: `cur` is the
pre-submission set of open-order ids, `last` the pre-submission id of
the most recent executed order (`none` when the history was empty).
Each poll first returns any previously-unseen open id; otherwise it
returns the executed-history tail id when the history is non-empty and
its tail changed; otherwise it sleeps and polls the next snapshot. -/
def correlate (cur : List ℤ) (last : Option ℤ) : List Snap → Option ℤ
  | [] => none
  | sn :: rest =>
      match freshId cur sn with
      | some i => some i
      | none =>
          if sn.execTail ≠ none ∧ sn.execTail ≠ last then sn.execTail
          else correlate cur last rest

/-- A snapshot on which one iteration of the correlation loop keeps
polling: no previously-unseen open id, and the executed tail is either
absent or unchanged. -/
def quietSnap (cur : List ℤ) (last : Option ℤ) (sn : Snap) : Prop :=
  freshId cur sn = none ∧ (sn.execTail = none ∨ sn.execTail = last)

/-- Read accessor `_Account.orders` (private.py, lines 71-77): it
returns `self._orders` itself, so the object a caller holds after the
access reflects the store as it is *now*, not as it was at access time.
`sAccess` is the store at access time, `sNow` the store after any later
mutations. -/
def orders_view (sAccess sNow : Account) : List (ℤ × Order) :=
  sNow.orders

/-- Read accessor `_Account.wallets` (private.py, lines 104-110): also
returns the live `self._wallets` mapping. -/
def wallets_view (sAccess sNow : Account) : List (String × ℚ) :=
  sNow.wallets

/-- Read accessor `_Account.executed_orders` (private.py, lines 63-69):
returns `OrderedDict(self._executed_orders)`, a fresh copy taken at
access time. -/
def executed_orders_view (sAccess sNow : Account) : List (ℤ × Order) :=
  sAccess.executed_orders

/-- Read accessor `_Account.available_balances` (private.py, lines
47-61): computed fresh from the state at access time. -/
def available_balances_view (sAccess sNow : Account) (c : String) : ℚ :=
  available_balances sAccess c

/-- Read accessor `Trader.prices` (trade.py, lines 127-129): returns
`self._prices.copy()`, a copy taken at access time. -/
def prices_view_trade (sAccess sNow : Account) : List (String × ℚ) :=
  sAccess.prices

/-- Spec-side available balance, written from the spec's words: start
from `wallet[currency]`; for every open order whose symbol maps to the
currency, if `remaining < 0` (open sell) subtract `|remaining|` from
the coin balance; if `remaining > 0` (open buy) subtract
`remaining * price` from the USD balance; round to 8 decimal places. -/
def availableBalance_spec (s : Account) (c : String) : ℚ :=
  round8 (dGet s.wallets c
    - (((s.orders.map Prod.snd).filter
          (fun o => decide (o.remaining < 0) && decide (coinOf o.symbol = c))).map
        (fun o => |o.remaining|)).sum
    - (if c = "usd" then
         (((s.orders.map Prod.snd).filter (fun o => decide (0 < o.remaining))).map
           (fun o => o.remaining * o.price)).sum
       else 0))

/-- Per-order change that `order_adjust` makes to the balance of
currency `c` (proof helper). -/
def contrib (c : String) (o : Order) : ℚ :=
  if o.remaining < 0 then (if c = coinOf o.symbol then o.remaining else 0)
  else (if c = "usd" then -(o.remaining * o.price) else 0)

/-- Spec-side position formula, written from the spec's words:
`(coinBalance * price − usdBalance) / totalValue` on raw wallet
balances. -/
def position_spec (s : Account) (symbol : String) : ℚ :=
  (dGet s.wallets (coinOf symbol) * dGet s.prices symbol
    - dGet s.wallets "usd") / value s

/-- Spec-side first truthy sizing argument in the fixed evaluation
order `dollar_amount`, `ratio`, `value_ratio`. -/
def firstTruthySpec (a b c : Option ℚ) : Option ℚ :=
  if truthy a then a else if truthy b then b else if truthy c then c else none

/-- Concrete raw order payload used in witnesses/counterexamples. -/
def raw1 : RawOrder :=
  { id := 17, symbol := "tBTCUSD", mts := 1000, remaining := 10,
    amount := 10, status := "ACTIVE", price := 50, executed_price := 0 }

/-- Concrete immediately-executed close payload (id never open). -/
def rawExec : RawOrder :=
  { id := 123, symbol := "tBTCUSD", mts := 1000, remaining := 0,
    amount := 10, status := "EXECUTED @ 50.0(10.0)", price := 50,
    executed_price := 43 }

/-- Store with balanced holdings: `usd = 5000` and one BTC worth 5000
at the last BTCUSD price. -/
def storeBalanced : Account :=
  { wallets := [("usd", 5000), ("btc", 1)], prices := [("BTCUSD", 5000)] }

/-- Store holding only `usd = 10000` (no coin). -/
def storeAllUsd : Account :=
  { wallets := [("usd", 10000)], prices := [("BTCUSD", 5000)] }

/-- Store of the sizing scenario: wallet `usd = 10000`. -/
def storeUsd10000 : Account := { wallets := [("usd", 10000)] }

/-- Store of the C6 counterexample: wallet `usd = 9000`. -/
def storeUsd9000 : Account := { wallets := [("usd", 9000)] }

/-- The open buy order produced by the sizing scenario: buy BTCUSD at
price 15000 with `dollar_amount = 1000`, so
`amount = remaining = round8(1000/15000)`. -/
def scenarioBuyOrder : Order :=
  { symbol := "BTCUSD", price := 15000, executed_price := 0,
    amount := 6666667 / 100000000, executed := 0,
    remaining := 6666667 / 100000000, status := "ACTIVE", timestamp := 1 }

/-- Store after the scenario buy order is open: wallet `usd = 10000`
and the scenario order in open orders. -/
def storeScenario : Account :=
  { wallets := [("usd", 10000)], orders := [(1, scenarioBuyOrder)] }

/-! ### Helper lemmas -/

theorem alookup_assocSet {α β : Type} [DecidableEq α]
    (m : List (α × β)) (k c : α) (v : β) :
    alookup (assocSet m k v) c = if c = k then some v else alookup m c := by
  induction m with
  | nil => simp [assocSet, alookup, eq_comm]
  | cons p rest ih =>
    by_cases hp : p.1 = k
    · by_cases hc : c = k
      · simp [assocSet, alookup, hp, hc]
      · have hkc : ¬ k = c := fun hh => hc hh.symm
        simp [assocSet, alookup, hp, hc, hkc]
    · by_cases hpc : p.1 = c
      · have hck : ¬ c = k := fun h => hp (hpc.trans h)
        simp [assocSet, alookup, hp, hpc, hck]
      · simp [assocSet, alookup, hp, hpc, ih]

theorem dGet_assocSet (m : List (String × ℚ)) (k c : String) (v : ℚ) :
    dGet (assocSet m k v) c = if c = k then v else dGet m c := by
  by_cases hc : c = k <;> simp [dGet, alookup_assocSet, hc]

theorem correlate_quiet_cons (cur : List ℤ) (last : Option ℤ)
    (t : Snap) (rest : List Snap) (hq : quietSnap cur last t) :
    correlate cur last (t :: rest) = correlate cur last rest := by
  simp only [correlate, hq.1]
  rw [if_neg]
  rintro ⟨h1, h2⟩
  rcases hq.2 with h | h
  · exact h1 h
  · exact h2 h

theorem foldl_dequeAppend_drop {α : Type} (l q : List α) (h : q.length ≤ 100) :
    l.foldl (dequeAppend 100) q = (q ++ l).drop (q.length + l.length - 100) := by
  induction l generalizing q with
  | nil => simp [Nat.sub_eq_zero_of_le h]
  | cons x xs ih =>
    simp only [List.foldl_cons]
    by_cases hq : q.length < 100
    · rw [dequeAppend, if_pos hq, ih (q ++ [x]) (by simp; omega)]
      rw [List.append_assoc]
      congr 1
      simp
      omega
    · have h100 : q.length = 100 := le_antisymm h (Nat.le_of_not_lt hq)
      rw [dequeAppend, if_neg hq, ih (q.drop 1 ++ [x]) (by simp; omega)]
      cases q with
      | nil => simp at h100
      | cons a qt =>
        have hqt : qt.length = 99 := by simpa using h100
        rw [show ((a :: qt).drop 1 ++ [x]) ++ xs = qt ++ x :: xs by simp]
        rw [show ((a :: qt) : List α) ++ x :: xs = a :: (qt ++ x :: xs) by simp]
        rw [show ((a :: qt).drop 1 ++ [x]).length + xs.length - 100 = xs.length by
          simp [hqt]]
        rw [show (a :: qt).length + (x :: xs).length - 100 = xs.length + 1 by
          simp [hqt]]
        rw [List.drop_succ_cons]

theorem mem_assocSet {α β : Type} [DecidableEq α] {m : List (α × β)}
    {k : α} {v : β} {p : α × β} (h : p ∈ assocSet m k v) :
    p = (k, v) ∨ p ∈ m := by
  induction m with
  | nil => simpa [assocSet] using h
  | cons q rest ih =>
    by_cases hq : q.1 = k
    · simp only [assocSet, if_pos hq, List.mem_cons] at h
      rcases h with h | h
      · exact Or.inl h
      · exact Or.inr (List.mem_cons_of_mem q h)
    · simp only [assocSet, if_neg hq, List.mem_cons] at h
      rcases h with h | h
      · exact Or.inr (h ▸ List.mem_cons_self q rest)
      · rcases ih h with h1 | h1
        · exact Or.inl h1
        · exact Or.inr (List.mem_cons_of_mem q h1)

theorem mem_foldl_assocSet {α β : Type} [DecidableEq α]
    (l : List (α × β)) (m0 : List (α × β)) (p : α × β)
    (h : p ∈ l.foldl (fun m q => assocSet m q.1 q.2) m0) :
    p ∈ l ∨ p ∈ m0 := by
  induction l generalizing m0 with
  | nil => exact Or.inr (by simpa using h)
  | cons q qs ih =>
    simp only [List.foldl_cons] at h
    rcases ih (assocSet m0 q.1 q.2) h with h1 | h1
    · exact Or.inl (List.mem_cons_of_mem q h1)
    · rcases mem_assocSet h1 with h2 | h2
      · exact Or.inl ((h2.trans (Prod.mk.eta)) ▸ List.mem_cons_self q qs)
      · exact Or.inr h2

theorem close_step_orders_subset (st : Account) (q : ℤ × Order) :
    ∀ p ∈ (close_step st q).orders, p ∈ st.orders := by
  intro p hp
  unfold close_step at hp
  by_cases hc : strStartsWith q.2.status "CANCEL" = true <;>
    simp only [hc, if_true, if_false, Bool.false_eq_true] at hp <;>
    split at hp <;>
    first
      | exact hp
      | exact (List.mem_filter.mp hp).1

theorem handle_order_close_orders_subset (os : List (ℤ × Order)) (s : Account) :
    ∀ p ∈ (handle_order_close os s).orders, p ∈ s.orders := by
  induction os generalizing s with
  | nil => intro p hp; simpa [handle_order_close] using hp
  | cons o os ih =>
    intro p hp
    have h1 : p ∈ (close_step s o).orders := by
      have := ih (close_step s o)
      exact this p (by simpa [handle_order_close] using hp)
    exact close_step_orders_subset s o p h1

theorem handle_order_invariant_step (e : OrderEvent) (s : Account)
    (hs : ∀ p ∈ s.orders, p.2.remaining = p.2.amount - p.2.executed) :
    ∀ p ∈ (handle_order e s).orders,
      p.2.remaining = p.2.amount - p.2.executed := by
  have hupd : ∀ (data : List RawOrder),
      ∀ p ∈ (handle_order_update (jsonify_orders data) s).orders,
        p.2.remaining = p.2.amount - p.2.executed := by
    intro data p hp
    unfold handle_order_update at hp
    rcases mem_foldl_assocSet _ _ _ hp with h | h
    · have h2 : p ∈ jsonify_orders data := List.mem_mergeSort.mp h
      obtain ⟨d', _, rfl⟩ := List.mem_map.mp h2
      simp [jsonifyOrder]
    · exact hs p h
  rcases e with data | d | d | d
  · exact hupd data
  · exact hupd [d]
  · exact hupd [d]
  · intro p hp
    exact hs p (handle_order_close_orders_subset (jsonify_orders [d]) s p hp)

theorem dGet_order_adjust (w : List (String × ℚ)) (o : Order) (c : String) :
    dGet (order_adjust w o) c = dGet w c + contrib c o := by
  unfold order_adjust contrib
  by_cases hr : o.remaining < 0
  · simp only [if_pos hr, dGet_assocSet]
    by_cases hc : c = coinOf o.symbol <;> simp [hc]
  · simp only [if_neg hr, dGet_assocSet]
    by_cases hc : c = "usd" <;> simp [hc] <;> ring

theorem dGet_foldl_adjust (os : List Order) (w : List (String × ℚ))
    (c : String) :
    dGet (os.foldl order_adjust w) c = dGet w c + (os.map (contrib c)).sum := by
  induction os generalizing w with
  | nil => simp
  | cons o os ih =>
    simp only [List.foldl_cons, List.map_cons, List.sum_cons]
    rw [ih, dGet_order_adjust]
    ring

theorem contrib_sum_split (os : List Order) (c : String) :
    (os.map (contrib c)).sum
      = -(((os.filter
              (fun o => decide (o.remaining < 0) && decide (coinOf o.symbol = c))).map
            (fun o => |o.remaining|)).sum)
        - (if c = "usd" then
            ((os.filter (fun o => decide (0 < o.remaining))).map
              (fun o => o.remaining * o.price)).sum
          else 0) := by
  induction os with
  | nil => simp
  | cons o os ih =>
    simp only [List.map_cons, List.sum_cons, List.filter_cons]
    by_cases hr : o.remaining < 0
    · have hb2 : decide (0 < o.remaining) = false := by
        simp only [decide_eq_false_iff_not]
        linarith
      by_cases hsym : coinOf o.symbol = c
      · have hb : (decide (o.remaining < 0) && decide (coinOf o.symbol = c)) = true := by
          simp [hr, hsym]
        have habs : |o.remaining| = -o.remaining := abs_of_neg hr
        simp only [hb, hb2, if_true, Bool.false_eq_true, if_false,
          List.map_cons, List.sum_cons, contrib, if_pos hr, if_pos hsym.symm,
          habs, ih]
        ring
      · have hb : (decide (o.remaining < 0) && decide (coinOf o.symbol = c)) = false := by
          simp [hsym]
        have hcs : ¬ c = coinOf o.symbol := fun hh => hsym hh.symm
        simp only [hb, hb2, Bool.false_eq_true, if_false, contrib, if_pos hr,
          if_neg hcs, ih]
        ring
    · have hb : (decide (o.remaining < 0) && decide (coinOf o.symbol = c)) = false := by
        simp [hr]
      by_cases hp : 0 < o.remaining
      · have hb2 : decide (0 < o.remaining) = true := by simp [hp]
        by_cases hc : c = "usd"
        · simp only [hb, hb2, Bool.false_eq_true, if_false, if_true,
            List.map_cons, List.sum_cons, contrib, if_neg hr, if_pos hc, ih]
          ring
        · simp only [hb, hb2, Bool.false_eq_true, if_false, if_true, contrib,
            if_neg hr, if_neg hc, ih, List.map_cons, List.sum_cons]
          ring
      · have h0 : o.remaining = 0 := le_antisymm (not_lt.mp hp) (not_lt.mp hr)
        have hb2 : decide (0 < o.remaining) = false := by simp [hp]
        by_cases hc : c = "usd"
        · simp only [hb, hb2, Bool.false_eq_true, if_false, contrib,
            if_neg hr, if_pos hc, ih]
          rw [h0]
          ring
        · simp only [hb, hb2, Bool.false_eq_true, if_false, contrib,
            if_neg hr, if_neg hc, ih]
          ring

/-! ### Claim theorems -/

/-- C1: for every run of the correlation loop of `Trader.order` (with
`return_id` true), over any observed snapshot stream in which the polls
before the triggering one are quiet, if a snapshot delivers (a) a
previously-unseen id in open orders, or (b) a new most-recent
executed-order id (different from its pre-submission value) with no
unseen id in open orders — in particular an order that fills
immediately and never appears as open — then the loop returns that
id. -/
theorem order_correlation_returns_new_id (cur : List ℤ) (last : Option ℤ)
    (pre : List Snap) (sn : Snap) (rest : List Snap) (nid : ℤ)
    (hpre : ∀ t ∈ pre, quietSnap cur last t)
    (hev : freshId cur sn = some nid ∨
      (freshId cur sn = none ∧ sn.execTail = some nid ∧ sn.execTail ≠ last)) :
    correlate cur last (pre ++ sn :: rest) = some nid := by
  induction pre with
  | nil =>
    simp only [List.nil_append]
    rcases hev with h | ⟨h1, h2, h3⟩
    · simp [correlate, h]
    · simp only [correlate, h1]
      rw [if_pos ⟨by simp [h2], h3⟩, h2]
  | cons t ts ih =>
    simp only [List.cons_append]
    rw [correlate_quiet_cons cur last t _ (hpre t (List.mem_cons_self t ts))]
    exact ih (fun u hu => hpre u (List.mem_cons_of_mem t hu))

/-- C1 witness: pre-submission one open order (id 1) and last executed
id 5; after one quiet poll the order fills immediately (executed tail
becomes 9 while never appearing as open), and the loop returns 9. -/
theorem order_correlation_returns_new_id_witness :
    correlate [1] (some 5)
      [⟨[1], some 5⟩, ⟨[1], some 9⟩, ⟨[1, 9], some 9⟩] = some 9 :=
  order_correlation_returns_new_id [1] (some 5) [⟨[1], some 5⟩] ⟨[1], some 9⟩
    [⟨[1, 9], some 9⟩] 9
    (by rintro t ht; simp at ht; subst ht; exact ⟨by decide, Or.inr (by decide)⟩)
    (Or.inr (by decide))

/-- C2 counterexample: a close event (status `EXECUTED`) for an id that
is not in open orders does change the store — it appends the pair to
the executed-orders history (duplicate delivery would duplicate the
entry). -/
theorem close_absent_id_not_noop_ce :
    handle_order (.oc rawExec) Account.init ≠ Account.init := by decide

/-- C2 (amended): a close event whose id is not in open orders leaves
open orders, wallets and prices unchanged; the executed-orders history
is unchanged only for a `CANCEL` status, while any other status still
appends `(id, order)` to it. -/
theorem close_absent_id_semantics (s : Account) (d : RawOrder)
    (h : alookup s.orders (jsonifyOrder d).1 = none) :
    (handle_order (.oc d) s).orders = s.orders ∧
    (handle_order (.oc d) s).wallets = s.wallets ∧
    (handle_order (.oc d) s).prices = s.prices ∧
    (handle_order (.oc d) s).executed_orders =
      (if strStartsWith (jsonifyOrder d).2.status "CANCEL" then
        s.executed_orders
       else dequeAppend 100 s.executed_orders (jsonifyOrder d)) := by
  have hb : handle_order (.oc d) s = handle_order_close [jsonifyOrder d] s := rfl
  rw [hb]
  unfold handle_order_close close_step
  simp only [List.foldl_cons, List.foldl_nil]
  by_cases hc : strStartsWith (jsonifyOrder d).2.status "CANCEL" = true
  · simp [hc, h]
  · simp only [Bool.not_eq_true] at hc
    simp [hc, h]

/-- C2 witness: the amended statement at the concrete immediate-fill
close event applied to the empty store. -/
theorem close_absent_id_semantics_witness :
    (handle_order (.oc rawExec) Account.init).orders = Account.init.orders ∧
    (handle_order (.oc rawExec) Account.init).wallets = Account.init.wallets ∧
    (handle_order (.oc rawExec) Account.init).prices = Account.init.prices ∧
    (handle_order (.oc rawExec) Account.init).executed_orders =
      (if strStartsWith (jsonifyOrder rawExec).2.status "CANCEL" then
        Account.init.executed_orders
       else dequeAppend 100 Account.init.executed_orders (jsonifyOrder rawExec)) :=
  close_absent_id_semantics Account.init rawExec rfl

/-- C4 counterexample: the `orders` property of `_Account` returns the
live `self._orders` mapping, not a copy: after a mutator runs, the
value held by a caller who read `orders` before the mutation has
changed. -/
theorem orders_accessor_alias_ce :
    orders_view Account.init (handle_order (.on raw1) Account.init)
      ≠ orders_view Account.init Account.init := by
  simp [orders_view, Account.init, handle_order, handle_order_update,
    jsonify_orders, List.mergeSort, assocSet]

/-- C4 (amended): `executed_orders`, `available_balances` (private.py)
and `prices` (trade.py) return snapshots fixed at access time —
independent of any later mutation — but the private.py `orders` and
`wallets` properties return the live mapping, whose observed value is
that of the mutated store. -/
theorem accessor_snapshot_classification :
    (∀ sA sN sN' : Account,
      executed_orders_view sA sN = executed_orders_view sA sN') ∧
    (∀ (sA sN sN' : Account) (c : String),
      available_balances_view sA sN c = available_balances_view sA sN' c) ∧
    (∀ sA sN sN' : Account, prices_view_trade sA sN = prices_view_trade sA sN') ∧
    (∀ sA sN : Account, orders_view sA sN = sN.orders) ∧
    (∀ sA sN : Account, wallets_view sA sN = sN.wallets) :=
  ⟨fun _ _ _ => rfl, fun _ _ _ _ => rfl, fun _ _ _ => rfl,
   fun _ _ => rfl, fun _ _ => rfl⟩

/-- C8: the executed-orders history is a bounded FIFO with capacity
100: appending 101 entries to the empty history leaves exactly the
latest 100 (the oldest entry is evicted), and an append never grows the
history beyond 100 entries. -/
theorem executed_history_fifo_bounded :
    (∀ l : List (ℤ × Order), l.length = 101 →
      l.foldl (dequeAppend 100) [] = l.drop 1) ∧
    (∀ (q : List (ℤ × Order)) (x : ℤ × Order), q.length ≤ 100 →
      (dequeAppend 100 q x).length ≤ 100) := by
  constructor
  · intro l hl
    rw [foldl_dequeAppend_drop l [] (by simp)]
    simp [hl]
  · intro q x hq
    by_cases h : q.length < 100
    · simp [dequeAppend, h]
      omega
    · simp [dequeAppend, h]
      omega

/-- C8 witness: 101 concrete distinct executed orders inserted into the
empty history leave the latest 100, and one append to the empty history
stays within the bound. -/
theorem executed_history_fifo_bounded_witness :
    ((List.range 101).map (fun (n : ℕ) => ((n : ℤ), (jsonifyOrder raw1).2))).foldl
        (dequeAppend 100) []
      = ((List.range 101).map (fun (n : ℕ) => ((n : ℤ), (jsonifyOrder raw1).2))).drop 1 ∧
    (dequeAppend 100 ([] : List (ℤ × Order)) (0, (jsonifyOrder raw1).2)).length ≤ 100 :=
  ⟨executed_history_fifo_bounded.1 _
      (by simp),
   executed_history_fifo_bounded.2 [] _ (by simp)⟩

/-- C9: a wallet snapshot (`ws`) updates only entries whose wallet-type
tag lower-cases to `exchange` (a snapshot with no such entry is a
no-op, and an exchange-tagged entry does set the balance), while a
wallet delta (`wu`) sets `wallets[currency] = balance` unconditionally,
whatever its wallet-type tag — so a delta for a margin wallet
overwrites the stored exchange balance. -/
theorem wallet_event_semantics :
    (∀ (s : Account) (data : List WalletEntry),
      (∀ d ∈ data, strLower d.wtype ≠ "exchange") →
      handle_wallet (.ws data) s = s) ∧
    (∀ (s : Account) (d : WalletEntry), strLower d.wtype = "exchange" →
      dGet (handle_wallet (.ws [d]) s).wallets (strLower d.currency) = d.balance) ∧
    (∀ (s : Account) (d : WalletEntry),
      dGet (handle_wallet (.wu d) s).wallets (strLower d.currency) = d.balance) := by
  refine ⟨?_, ?_, ?_⟩
  · intro s data hall
    have hfold : ∀ (l : List WalletEntry) (w : List (String × ℚ)),
        (∀ d ∈ l, strLower d.wtype ≠ "exchange") →
        l.foldl
          (fun w d =>
            if strLower d.wtype = "exchange" then
              assocSet w (strLower d.currency) d.balance
            else w) w = w := by
      intro l
      induction l with
      | nil => intro w _; rfl
      | cons d ds ih =>
        intro w hl
        simp only [List.foldl_cons, if_neg (hl d (List.mem_cons_self d ds))]
        exact ih w (fun u hu => hl u (List.mem_cons_of_mem d hu))
    show { s with wallets := _ } = s
    rw [hfold data s.wallets hall]
  · intro s d hd
    simp only [handle_wallet, List.foldl_cons, List.foldl_nil, if_pos hd]
    simp [dGet_assocSet]
  · intro s d
    show dGet (assocSet s.wallets (strLower d.currency) d.balance)
      (strLower d.currency) = d.balance
    simp [dGet_assocSet]

/-- C9 witness: a snapshot carrying only a margin-tagged entry is a
no-op on the empty store; an exchange-tagged snapshot entry sets the
balance; a margin-tagged delta still overwrites the balance. -/
theorem wallet_event_semantics_witness :
    handle_wallet (.ws [⟨"margin", "usd", 5⟩]) Account.init = Account.init ∧
    dGet (handle_wallet (.ws [⟨"EXCHANGE", "usd", 7⟩]) Account.init).wallets
      (strLower "usd") = 7 ∧
    dGet (handle_wallet (.wu ⟨"margin", "usd", 9⟩) Account.init).wallets
      (strLower "usd") = 9 :=
  ⟨wallet_event_semantics.1 Account.init [⟨"margin", "usd", 5⟩]
      (by intro d hd; simp at hd; rw [hd]; decide),
   wallet_event_semantics.2.1 Account.init ⟨"EXCHANGE", "usd", 7⟩ (by decide),
   wallet_event_semantics.2.2 Account.init ⟨"margin", "usd", 9⟩⟩

/-- C3 counterexample: in the balanced scenario (`usd = 5000`, one BTC
worth 5000 at the last price, total value 10000) the claimed formula
`(coin*price − usd)/value` — which is what `Trader.position` (trade.py)
computes — yields `0`, not the claimed `0.5`; the `0.5` is what the
divergent `_Account.positions` (private.py, `coin*price/value`)
returns, and that accessor in turn fails the claimed formula in the
all-USD scenario (`0` instead of `-1`). -/
theorem position_balanced_scenario_ce :
    position_trade storeBalanced "BTCUSD" = 0 ∧ (0 : ℚ) ≠ 1 / 2 ∧
    positions_priv storeBalanced "BTCUSD" = 1 / 2 ∧
    positions_priv storeAllUsd "BTCUSD" = 0 ∧ (0 : ℚ) ≠ -1 := by
  have hc : coinOf "BTCUSD" = "btc" := rfl
  have hu : strUpper "btc" ++ "USD" = "BTCUSD" := rfl
  refine ⟨?_, by norm_num, ?_, ?_, by norm_num⟩
  · norm_num +decide [position_trade, storeBalanced, value, dGet, alookup, hc, hu,
      round2, pyRoundInt]
  · norm_num +decide [positions_priv, storeBalanced, value, dGet, alookup,
      hc, hu, round2, pyRoundInt]
  · norm_num +decide [positions_priv, storeAllUsd, value, dGet, alookup,
      hc, hu, round2, pyRoundInt]

/-- C3 (amended): for every symbol and store with strictly positive
total value, `Trader.position` (trade.py) equals the spec formula
`(coinBalance*price − usdBalance)/totalValue` on raw wallet balances;
in the balanced scenario (`usd = 5000`, coin worth 5000) it returns `0`
(not `0.5`, which is what private.py's divergent `positions` returns),
and in the all-USD scenario (`usd = 10000`, no coin) it returns `-1`. -/
theorem position_formula_and_scenarios :
    (∀ (s : Account) (symbol : String), 0 < value s →
      position_trade s symbol = position_spec s symbol) ∧
    position_trade storeBalanced "BTCUSD" = 0 ∧
    position_trade storeAllUsd "BTCUSD" = -1 := by
  have hc : coinOf "BTCUSD" = "btc" := rfl
  have hu : strUpper "btc" ++ "USD" = "BTCUSD" := rfl
  refine ⟨fun s symbol _ => rfl, ?_, ?_⟩
  · norm_num +decide [position_trade, storeBalanced, value, dGet, alookup, hc, hu,
      round2, pyRoundInt]
  · norm_num +decide [position_trade, storeAllUsd, value, dGet, alookup, hc,
      round2, pyRoundInt]

/-- C3 witness: the positive-value hypothesis holds in the balanced
store, where the code formula agrees with the spec formula. -/
theorem position_formula_and_scenarios_witness :
    0 < value storeBalanced ∧
    position_trade storeBalanced "BTCUSD" = position_spec storeBalanced "BTCUSD" := by
  have hv : 0 < value storeBalanced := by
    have hu : strUpper "btc" ++ "USD" = "BTCUSD" := rfl
    norm_num +decide [value, storeBalanced, dGet, alookup, hu, round2, pyRoundInt]
  exact ⟨hv, position_formula_and_scenarios.1 storeBalanced "BTCUSD" hv⟩

/-- C5: for every sequence of order events applied to the initially
empty store, every order in the open-orders map satisfies
`remaining = amount - executed` (quantifying over all event sequences
covers the state after each application). -/
theorem remaining_amount_executed_invariant (evs : List OrderEvent)
    (p : ℤ × Order) (hp : p ∈ (applyOrderEvents evs Account.init).orders) :
    p.2.remaining = p.2.amount - p.2.executed := by
  have h : ∀ (l : List OrderEvent) (s : Account),
      (∀ q ∈ s.orders, q.2.remaining = q.2.amount - q.2.executed) →
      ∀ q ∈ (applyOrderEvents l s).orders,
        q.2.remaining = q.2.amount - q.2.executed := by
    intro l
    induction l with
    | nil => intro s hs; simpa [applyOrderEvents] using hs
    | cons e es ih =>
      intro s hs q hq
      have h1 := handle_order_invariant_step e s hs
      exact ih (handle_order e s) h1 q (by simpa [applyOrderEvents] using hq)
  exact h evs Account.init (by simp [Account.init]) p hp

/-- C5 witness: after a single `on` event on the empty store, the one
open order satisfies the invariant. -/
theorem remaining_amount_executed_invariant_witness :
    (jsonifyOrder raw1).2.remaining
      = (jsonifyOrder raw1).2.amount - (jsonifyOrder raw1).2.executed :=
  remaining_amount_executed_invariant [.on raw1] (jsonifyOrder raw1)
    (by simp [applyOrderEvents, handle_order, handle_order_update,
      jsonify_orders, List.mergeSort, assocSet, Account.init])

/-- C6 counterexample: with two sizing arguments given (`dollar_amount
= 0` and `ratio = 0.5`) the call does not fail — the truthiness-based
asserts count `0` as absent, the validation passes, and a transport
request is issued (here on a store with `usd = 9000` at price 15000,
producing a buy of `0.3` BTC). -/
theorem order_two_sizing_args_ok_ce :
    order storeUsd9000 "BTCUSD" (.px 15000) (some 0) (some (1 / 2)) none
        "limit" none
      = .ok ⟨"EXCHANGE LIMIT", "tBTCUSD", 3 / 10, 15000⟩ := by
  have h2 : String.mk (takeUntilUSD (strUpper "BTCUSD").data) ++ "USD" = "BTCUSD" := rfl
  have h3 : strLower "limit" = "limit" := rfl
  have h5 : (("limit" : String) = "market") = False := by simp
  have h6 : ("EXCHANGE " ++ strUpper "limit") = "EXCHANGE LIMIT" := rfl
  have h7 : ("t" ++ "BTCUSD" : String) = "tBTCUSD" := rfl
  have hw : available_balances storeUsd9000 "usd" = 9000 := by
    norm_num [available_balances, storeUsd9000, dGet, alookup, round8, pyRoundInt]
  have hr : round8 (3 / 10) = 3 / 10 := by norm_num [round8, pyRoundInt]
  have hm : round8 (3 / 5) = 3 / 5 := by norm_num [round8, pyRoundInt]
  simp only [order, truthy, pyOr3, pyOr2, tradeTypes, h2, h3, h5, h6, h7,
    List.countP, List.countP.go, decide_eq_true_eq, if_true, if_false]
  norm_num [hw, hr, hm, abs_of_nonneg]

/-- C6 (amended): whenever the number of truthy sizing arguments (a
sizing argument passed as `None` or `0` counts as absent) is not
exactly one, or `trade_type.lower()` is not in `{market, limit}`,
`Trader.order` fails with one of the three validation
`AssertionError`s, before any transport call is made (the request
payload exists only in the success result) — and `order` never mutates
the store. -/
theorem order_invalid_sizing_error (s : Account) (symbol0 : String)
    (price0 : PriceArg) (da r vr : Option ℚ) (tt : String) (pad : Option ℚ)
    (h : [da, r, vr].countP truthy ≠ 1 ∨ strLower tt ∉ tradeTypes) :
    order s symbol0 price0 da r vr tt pad = .error errNoSizing ∨
    order s symbol0 price0 da r vr tt pad = .error errManySizing ∨
    order s symbol0 price0 da r vr tt pad = .error errTradeType := by
  by_cases h1 : truthy da = true ∨ truthy r = true ∨ truthy vr = true
  · by_cases h2 : [da, r, vr].countP truthy = 1
    · have h3 : strLower tt ∉ tradeTypes := h.resolve_left (fun hc => hc h2)
      right; right
      unfold order
      rw [if_neg (not_not_intro h1), if_neg (not_not_intro h2), if_pos h3]
    · right; left
      unfold order
      rw [if_neg (not_not_intro h1), if_pos h2]
  · left
    unfold order
    rw [if_pos h1]

/-- C6 witness: with no sizing argument at all the call fails with a
validation error. -/
theorem order_invalid_sizing_error_witness :
    order Account.init "BTCUSD" (.px 1) none none none "limit" none
        = .error errNoSizing ∨
    order Account.init "BTCUSD" (.px 1) none none none "limit" none
        = .error errManySizing ∨
    order Account.init "BTCUSD" (.px 1) none none none "limit" none
        = .error errTradeType :=
  order_invalid_sizing_error Account.init "BTCUSD" (.px 1) none none none
    "limit" none (Or.inl (by decide))

/-- C7: for every store and currency, `available_balances` equals the
spec formula (wallet balance, minus `|remaining|` for open sells of
that coin, minus `remaining * price` over open buys for USD, rounded to
8 decimals); and in the scenario — wallet `usd = 10000`, buy `BTCUSD`
at price 15000 with `dollar_amount = 1000` — the submitted amount is
`0.06666667` and the available USD balance is `≈ 9000.00` (exactly
`8999.99995`). -/
theorem available_balances_formula_and_scenario :
    (∀ (s : Account) (c : String),
      available_balances s c = availableBalance_spec s c) ∧
    order storeUsd10000 "BTCUSD" (.px 15000) (some 1000) none none "limit" none
      = .ok ⟨"EXCHANGE LIMIT", "tBTCUSD", 6666667 / 100000000, 15000⟩ ∧
    scenarioBuyOrder.amount = 6666667 / 100000000 ∧
    available_balances storeScenario "usd" = 8999 + 99995 / 100000 ∧
    |available_balances storeScenario "usd" - 9000| ≤ 1 / 100 := by
  have hform : ∀ (s : Account) (c : String),
      available_balances s c = availableBalance_spec s c := by
    intro s c
    unfold available_balances availableBalance_spec
    rw [dGet_foldl_adjust, contrib_sum_split]
    congr 1
    ring
  have hc : coinOf "BTCUSD" = "btc" := rfl
  have hav : available_balances storeScenario "usd" = 8999 + 99995 / 100000 := by
    norm_num +decide [available_balances, storeScenario, scenarioBuyOrder,
      order_adjust, dGet, alookup, hc, round8, pyRoundInt]
  refine ⟨hform, ?_, by norm_num [scenarioBuyOrder], hav, ?_⟩
  · have h2 : String.mk (takeUntilUSD (strUpper "BTCUSD").data) ++ "USD" = "BTCUSD" := rfl
    have h3 : strLower "limit" = "limit" := rfl
    have h5 : (("limit" : String) = "market") = False := by simp
    have h6 : ("EXCHANGE " ++ strUpper "limit") = "EXCHANGE LIMIT" := rfl
    have h7 : ("t" ++ "BTCUSD" : String) = "tBTCUSD" := rfl
    have hw : available_balances storeUsd10000 "usd" = 10000 := by
      norm_num [available_balances, storeUsd10000, dGet, alookup, round8,
        pyRoundInt]
    have hr : round8 (1 / 15) = 6666667 / 100000000 := by
      norm_num [round8, pyRoundInt]
    have hm : round8 (2 / 3) = 66666667 / 100000000 := by
      norm_num [round8, pyRoundInt]
    simp only [order, truthy, pyOr3, pyOr2, tradeTypes, h2, h3, h5, h6, h7,
      List.countP, List.countP.go, decide_eq_true_eq, if_true, if_false]
    norm_num [hw, hr, hm, abs_of_nonneg]
  · rw [hav]
    norm_num [abs_le]

/-- C10: the sizing arguments of `Trader.order` are tested by Python
truthiness: a call with only `dollar_amount = 0` fails the
`AssertionError` for missing sizing; a call with `dollar_amount = 0`
behaves exactly as the same call with `dollar_amount = None` (so
`dollar_amount = 0, ratio = 0.5` runs as if only `ratio` were given);
and the first-truthy value `dollar_amount or ratio or value_ratio`,
whose sign decides buy vs sell, is the first truthy argument in the
fixed order `dollar_amount`, `ratio`, `value_ratio`. -/
theorem order_truthiness_semantics :
    (∀ (s : Account) (symbol0 : String) (price0 : PriceArg) (tt : String)
        (pad : Option ℚ),
      order s symbol0 price0 (some 0) none none tt pad = .error errNoSizing) ∧
    (∀ (s : Account) (symbol0 : String) (price0 : PriceArg) (r vr : Option ℚ)
        (tt : String) (pad : Option ℚ),
      order s symbol0 price0 (some 0) r vr tt pad
        = order s symbol0 price0 none r vr tt pad) ∧
    (∀ da r vr : Option ℚ, (truthy da || truthy r || truthy vr) = true →
      pyOr3 da r vr = firstTruthySpec da r vr) := by
  have h0 : truthy (some (0 : ℚ)) = false := by decide
  refine ⟨?_, ?_, ?_⟩
  · intro s symbol0 price0 tt pad
    unfold order
    rw [if_pos]
    simp [truthy, h0]
  · intro s symbol0 price0 r vr tt pad
    simp only [order, truthy, pyOr2, pyOr3, List.countP, List.countP.go, h0]
    norm_num
  · intro da r vr h
    unfold pyOr3 pyOr2 firstTruthySpec
    by_cases ha : truthy da = true
    · simp [ha]
    · simp only [Bool.not_eq_true] at ha
      by_cases hb : truthy r = true
      · simp [ha, hb]
      · simp only [Bool.not_eq_true] at hb
        simp [ha, hb] at h
        simp [ha, hb, h]

/-- C10 witness: the three parts at concrete inputs — `dollar_amount =
0` alone fails; `dollar_amount = 0, ratio = 0.5` equals the call with
only `ratio = 0.5`; the first truthy of `(0, 0.5, None)` is `0.5`. -/
theorem order_truthiness_semantics_witness :
    order Account.init "BTCUSD" (.px 1) (some 0) none none "limit" none
        = .error errNoSizing ∧
    order storeUsd9000 "BTCUSD" (.px 15000) (some 0) (some (1 / 2)) none
        "limit" none
      = order storeUsd9000 "BTCUSD" (.px 15000) none (some (1 / 2)) none
        "limit" none ∧
    pyOr3 (some 0) (some (1 / 2)) none
      = firstTruthySpec (some 0) (some (1 / 2)) none :=
  ⟨order_truthiness_semantics.1 Account.init "BTCUSD" (.px 1) "limit" none,
   order_truthiness_semantics.2.1 storeUsd9000 "BTCUSD" (.px 15000)
     (some (1 / 2)) none "limit" none,
   order_truthiness_semantics.2.2 (some 0) (some (1 / 2)) none
     (by norm_num [truthy])⟩

end Btfx
